import Mathlib

/-!
Shallow embedding of the turn-resolution core of the Maverick card game
(`src/main.rs`, `src/consts.rs`).  Rendering, asset loading and input
plumbing are out of scope; the embedding models the `Game` state and the
`Game::update` entry point.  Machine integers (`u8`/`usize`) are modelled
as `Nat`: all arithmetic in the resolver is on small values (card values
1..5, strengths 0..5, indices < 14) where no wrap-around can occur, and
`usize` subtraction in the source is `saturating_sub`/`checked_sub`,
matching `Nat` subtraction respectively explicit guards.  Panics
(`assert!`, remainder by zero on an empty hand) are modelled by `Option`:
`none` is an abort.  The one random draw inside `update` (the Noxious
discard) is modelled by threading the raw random number `r : Nat` and
taking `r % hand.length` exactly as the source does.
-/

namespace Maverick

/-- `consts.rs`: number of monsters in the dungeon this game. -/
def MONSTER_DECK_SIZE : Nat := 14

/-- Which entity an action can be performed on. -/
inductive Entity where
  | Character
  | Companion
deriving DecidableEq, Repr

/-- Direction which an ability is performed in the dungeon row. -/
inductive Direction where
  | Left
  | Right
deriving DecidableEq, Repr

/-- Available actions the player can perform in the game. -/
inductive Action where
  | Range (e : Entity) (d : Direction)
  | Melee (e : Entity)
  | Move (e : Entity) (d : Direction)
  | Swap
  | EndTurn
deriving DecidableEq, Repr

/-- Special abilities that some monsters have. -/
inductive Ability where
  | Noxious
  | Rally
  | Reign
deriving DecidableEq, Repr

/-- Actions needed to be performed on a monster in order to kill it. -/
inductive ToSlay where
  | Melee
  | Range
  | Move
deriving DecidableEq, Repr

/-- Current player kind. -/
inductive PlayerKind where
  | Regular
  | Monstrous
deriving DecidableEq, Repr

/-- Types of companions available. -/
inductive CompanionKind where
  | Melee
  | Range
deriving DecidableEq, Repr

/-- States of the game itself. -/
inductive State where
  | Playing
  | EndGame
  | Reset
deriving DecidableEq, Repr

/-- Monster stats (the parallel vectors of `struct Monsters`, minus the
images, which are presentation-only). -/
structure Monsters where
  names : List String
  strengths : List Nat
  strength_adjustments : List Nat
  abilities : List (Option Ability)
  to_slays : List (List ToSlay)
  current_hits : List (List ToSlay)
  alive : List Bool
deriving DecidableEq, Repr

/-- Type of action resulting from a click (`enum ClickableType`).  The
presentation layer translates a click location into the clickables it
hits; `update` receives that list. -/
inductive ClickableType where
  | ActionC (a : Action)
  | CardC (i : Nat)
  | StateC (s : State)
deriving DecidableEq, Repr

/-- Global struct for handling game state (`struct Game`, minus the image
cache, font and clickable-region cache, which are presentation-only). -/
structure Game where
  state : State
  monsters : Monsters
  player_index : Nat
  player_kind : PlayerKind
  companion_index : Nat
  companion_kind : CompanionKind
  deck : List Nat
  hand : List Nat
  hand_limit : Nat
  current_action : Option Action
  current_card : Option Nat
  discarded : Bool
  payments : Nat
  trophies : Nat
deriving DecidableEq, Repr

/-- `self.monsters.current_hits[i].push(t)` on the Rust side. -/
def Monsters.addHit (m : Monsters) (i : Nat) (t : ToSlay) : Monsters :=
  { m with current_hits := m.current_hits.set i (m.current_hits.getD i [] ++ [t]) }

/-- `matches!(abilities[j], Some(Ability::Noxious))`. -/
def Monsters.isNoxiousAt (m : Monsters) (j : Nat) : Bool :=
  match m.abilities.getD j none with
  | some Ability.Noxious => true
  | _ => false

/-- `matches!(abilities[j], Some(Ability::Rally)) && alive[j]`. -/
def rallyAliveAt (m : Monsters) (j : Nat) : Bool :=
  (match m.abilities.getD j none with
   | some Ability.Rally => true
   | _ => false) && m.alive.getD j false

/-- The clickables loop at the top of `Game::update`: each hit clickable
sets the action slot or the card slot; a Reset clickable sets the state
to Reset and returns from `update` immediately (second component `true`
signals that early return). -/
def processClicks (g : Game) : List ClickableType → Game × Bool
  | [] => (g, false)
  | c :: rest =>
    match c with
    | ClickableType.ActionC a => processClicks { g with current_action := some a } rest
    | ClickableType.CardC i => processClicks { g with current_card := some i } rest
    | ClickableType.StateC State.Reset => ({ g with state := State.Reset }, true)
    | ClickableType.StateC _ => processClicks g rest

/-- The big `match (self.current_action, self.current_card)` of
`Game::update` (lines 866..1084).  Returns the mutated game together with
`current_monster`, `reset` and `add_trophy`, or `none` on a panic (a
failed `assert!`, or the `% 0` of the Noxious discard on an empty hand).
`r` is the raw random number consumed by the Noxious discard. -/
def combatPhase (g : Game) (r : Nat) : Option (Game × Option Nat × Bool × Bool) :=
  match g.current_action, g.current_card with
  | some (Action.Move entity direction), some hand_index =>
    if hand_index < g.hand.length then
      let num := g.hand.getD hand_index 0
      let g := { g with hand := g.hand.eraseIdx hand_index }
      let gi : Game × Nat :=
        match entity, direction with
        | Entity.Character, Direction.Left =>
          let idx := g.player_index - num
          ({ g with player_index := idx }, idx)
        | Entity.Character, Direction.Right =>
          let new_index := g.player_index + num
          let new_index := if new_index ≥ MONSTER_DECK_SIZE then MONSTER_DECK_SIZE - 1 else new_index
          ({ g with player_index := new_index }, new_index)
        | Entity.Companion, Direction.Left =>
          let idx := g.companion_index - num
          ({ g with companion_index := idx }, idx)
        | Entity.Companion, Direction.Right =>
          let new_index := g.companion_index + num
          let new_index := if new_index ≥ MONSTER_DECK_SIZE then MONSTER_DECK_SIZE - 1 else new_index
          ({ g with companion_index := new_index }, new_index)
      let g := gi.1
      let index := gi.2
      let g := { g with monsters := g.monsters.addHit index ToSlay.Move }
      let add_trophy :=
        num == g.monsters.strengths.getD index 0 + g.monsters.strength_adjustments.getD index 0
      if g.monsters.isNoxiousAt index && g.monsters.alive.getD index false then
        if g.hand.length == 0 then
          none
        else
          some ({ g with hand := g.hand.eraseIdx (r % g.hand.length), discarded := true,
                         current_card := none, current_action := none },
                some index, false, add_trophy)
      else
        some ({ g with current_card := none, current_action := none },
              some index, false, add_trophy)
    else none
  | some Action.Swap, some hand_index =>
    if hand_index < g.hand.length then
      let g := { g with hand := g.hand.eraseIdx hand_index }
      let ck := match g.companion_kind with
        | CompanionKind.Melee => CompanionKind.Range
        | CompanionKind.Range => CompanionKind.Melee
      some ({ g with companion_kind := ck, current_card := none, current_action := none },
            none, false, false)
    else none
  | some (Action.Range entity Direction.Left), some hand_index =>
    if hand_index < g.hand.length then
      let num := g.hand.getD hand_index 0
      let g := { g with hand := g.hand.eraseIdx hand_index }
      let gct : Game × Option Nat × Bool :=
        match entity with
        | Entity.Companion =>
          -- `matches!(companion_index.checked_sub(num), Some(0..13))`
          if num ≤ g.companion_index ∧ g.companion_index - num < 13 then
            let t := g.companion_index - num
            let g := { g with monsters := g.monsters.addHit t ToSlay.Range }
            let monster_str := g.monsters.strengths.getD t 0 + g.monsters.strength_adjustments.getD t 0
            (g, some t, num == monster_str)
          else (g, none, false)
        | Entity.Character =>
          if num ≤ g.player_index ∧ g.player_index - num < 13 then
            let t := g.player_index - num
            let g := { g with monsters := g.monsters.addHit t ToSlay.Range }
            let monster_str := g.monsters.strengths.getD t 0 + g.monsters.strength_adjustments.getD t 0
            (g, some t, num == monster_str)
          else (g, none, false)
      some ({ gct.1 with current_card := none, current_action := none },
            gct.2.1, false, gct.2.2)
    else none
  | some (Action.Range entity Direction.Right), some hand_index =>
    if hand_index < g.hand.length then
      let num := g.hand.getD hand_index 0
      let g := { g with hand := g.hand.eraseIdx hand_index }
      let gct : Game × Option Nat × Bool :=
        match entity with
        | Entity.Companion =>
          if g.companion_index + num < MONSTER_DECK_SIZE then
            let t := g.companion_index + num
            let g := { g with monsters := g.monsters.addHit t ToSlay.Range }
            let monster_str := g.monsters.strengths.getD t 0 + g.monsters.strength_adjustments.getD t 0
            (g, some t, num == monster_str)
          else (g, none, false)
        | Entity.Character =>
          if g.player_index + num < MONSTER_DECK_SIZE then
            let t := g.player_index + num
            let g := { g with monsters := g.monsters.addHit t ToSlay.Range }
            let monster_str := g.monsters.strengths.getD t 0 + g.monsters.strength_adjustments.getD t 0
            (g, some t, num == monster_str)
          else (g, none, false)
      some ({ gct.1 with current_card := none, current_action := none },
            gct.2.1, false, gct.2.2)
    else none
  | some (Action.Melee entity), some hand_index =>
    if hand_index < g.hand.length then
      let num := g.hand.getD hand_index 0
      let g := { g with hand := g.hand.eraseIdx hand_index }
      let monster_index := match entity with
        | Entity.Character => g.player_index
        | Entity.Companion => g.companion_index
      let monster_strength :=
        g.monsters.strengths.getD monster_index 0 + g.monsters.strength_adjustments.getD monster_index 0
      let gct : Game × Option Nat × Bool :=
        if num ≥ monster_strength then
          ({ g with monsters := g.monsters.addHit monster_index ToSlay.Melee },
            some monster_index, num == monster_strength)
        else (g, none, false)
      some ({ gct.1 with current_card := none, current_action := none },
            gct.2.1, false, gct.2.2)
    else none
  | some Action.EndTurn, _ =>
    some ({ g with current_card := none, current_action := none }, none, true, false)
  | _, _ => some (g, none, false, false)

/-- The kill check of `Game::update` (lines 1091..1112): remove each
accumulated hit from a working copy of the monster's `to_slays`; if the
copy empties the monster dies, its hits are cleared, and a trophy is
awarded if the resolving action qualified. -/
def killCheck (g : Game) (current_monster : Option Nat) (add_trophy : Bool) : Game :=
  match current_monster with
  | none => g
  | some index =>
    if g.monsters.alive.getD index false then
      let curr_hits := g.monsters.current_hits.getD index []
      let to_slays := curr_hits.foldl (fun acc h => acc.erase h) (g.monsters.to_slays.getD index [])
      if to_slays.length = 0 then
        let g := { g with monsters := { g.monsters with
                     alive := g.monsters.alive.set index false,
                     current_hits := g.monsters.current_hits.set index [] } }
        if add_trophy then { g with trophies := g.trophies + 1 } else g
      else g
    else g

/-- One iteration of the Rally loop (lines 1120..1132): a living Rally
monster at `j` adds +1 to the strength adjustment of its left and right
neighbours.  The loop only mutates `strength_adjustments`, so reading
abilities and alive flags from the initial `m` is exact. -/
def rallyStep (m : Monsters) (a : List Nat) (j : Nat) : List Nat :=
  if rallyAliveAt m j then
    let a := if j > 0 then a.set (j - 1) (a.getD (j - 1) 0 + 1) else a
    if j < MONSTER_DECK_SIZE - 1 then a.set (j + 1) (a.getD (j + 1) 0 + 1) else a
  else a

/-- Lines 1115..1117: reset all strength adjustments to 0. -/
def zeroAdjusts (a : List Nat) : List Nat :=
  (List.range MONSTER_DECK_SIZE).foldl (fun acc i => acc.set i 0) a

/-- The full strength-adjustment recompute (lines 1114..1132). -/
def Monsters.rallyRecompute (m : Monsters) : Monsters :=
  { m with strength_adjustments :=
      (List.range MONSTER_DECK_SIZE).foldl (rallyStep m) (zeroAdjusts m.strength_adjustments) }

/-- The reset branch of `Game::update` (lines 1144..1160): clear the
hand, refill up to `hand_limit` cards popped from the tail of the deck
(stopping silently when the deck empties), and clear every monster's
current hits. -/
def resetRefill (g : Game) : Game :=
  let hd := (List.range g.hand_limit).foldl
    (fun hd _ => match hd.2.getLast? with
      | some new_card => (hd.1 ++ [new_card], hd.2.dropLast)
      | none => hd)
    (([] : List Nat), g.deck)
  { g with hand := hd.1, deck := hd.2,
           monsters := { g.monsters with
             current_hits := g.monsters.current_hits.map (fun _ => []) } }

/-- The hand/turn lifecycle tail of `Game::update` (lines 1134..1167):
hand-exhaustion check (turn Monstrous, hand limit 6, force a reset),
the reset refill, the end-game check, and clearing the discarded flag. -/
def lifecycle (g : Game) (reset : Bool) : Game :=
  let gr : Game × Bool :=
    if g.hand.length == 0 && !g.discarded then
      ({ g with hand_limit := 6, player_kind := PlayerKind.Monstrous }, true)
    else (g, reset)
  let g := gr.1
  let g := if gr.2 then resetRefill g else g
  let g := if g.hand.length == 0 && g.deck.length == 0 then { g with state := State.EndGame } else g
  { g with discarded := false }

/-- `Game::update` (lines 845..1168): clickable processing (with the
early return on a Reset click), combat resolution, kill check, Rally
recompute, and the hand/turn lifecycle.  `none` models a panic. -/
def Game.update (g0 : Game) (clicks : List ClickableType) (r : Nat) : Option Game :=
  let pc := processClicks g0 clicks
  if pc.2 then some pc.1
  else
    match combatPhase pc.1 r with
    | none => none
    | some (g1, current_monster, reset, add_trophy) =>
      let g2 := killCheck g1 current_monster add_trophy
      let g3 := { g2 with monsters := g2.monsters.rallyRecompute }
      some (lifecycle g3 reset)

/-- The total score displayed at EndGame (`Game::draw`, lines 434..441):
`payments*3 + trophies*2 + (cards left in hand + deck)`. -/
def totalScore (g : Game) : Nat :=
  g.payments * 3 + g.trophies * 2 + (g.hand.length + g.deck.length)

/-- Number of neighbours of position `i` (within `[0, N-1]`) holding a
living Rally monster.  Used to state what the recompute achieves. -/
def adjacentRallyCount (m : Monsters) (i : Nat) : Nat :=
  (if 0 < i ∧ rallyAliveAt m (i - 1) = true then 1 else 0) +
  (if i + 1 < MONSTER_DECK_SIZE ∧ rallyAliveAt m (i + 1) = true then 1 else 0)

/-- The monster index an entity acts on (`match entity { Character => player_index, Companion => companion_index }`). -/
def entityIndex (g : Game) (e : Entity) : Nat :=
  match e with
  | Entity.Character => g.player_index
  | Entity.Companion => g.companion_index

/-- Effective strength of the monster at `idx`:
`strengths[idx] + strength_adjustments[idx]`. -/
def effStrength (g : Game) (idx : Nat) : Nat :=
  g.monsters.strengths.getD idx 0 + g.monsters.strength_adjustments.getD idx 0

/-- Destination index of a Move resolution, exactly as the source
computes it (saturating subtraction to the left, clamp to `N-1` to the
right). -/
def moveTarget (g : Game) (e : Entity) (d : Direction) (num : Nat) : Nat :=
  match d with
  | Direction.Left => entityIndex g e - num
  | Direction.Right =>
    if entityIndex g e + num ≥ MONSTER_DECK_SIZE then MONSTER_DECK_SIZE - 1
    else entityIndex g e + num

/-- The Noxious trigger condition of the Move branch:
`matches!(abilities[index], Some(Noxious)) && alive[index]`. -/
def noxiousLanding (g : Game) (dst : Nat) : Bool :=
  g.monsters.isNoxiousAt dst && g.monsters.alive.getD dst false

/-- A concrete well-formed monster roster used to evaluate the theorems on
explicit inputs (14 slots, as `MONSTER_DECK_SIZE` fixes). -/
def testMonsters : Monsters := {
  names := List.replicate 14 "M",
  strengths := [3, 1, 0, 2, 4, 1, 5, 0, 2, 3, 1, 2, 1, 2],
  strength_adjustments := List.replicate 14 0,
  abilities := [none, some Ability.Rally, some Ability.Noxious, none, none, none, none,
                none, none, none, none, none, none, none],
  to_slays := [[ToSlay.Melee], [ToSlay.Melee], [ToSlay.Move], [ToSlay.Melee, ToSlay.Range],
               [ToSlay.Range], [ToSlay.Range, ToSlay.Range], [ToSlay.Move, ToSlay.Melee, ToSlay.Range],
               [ToSlay.Move], [ToSlay.Range], [ToSlay.Melee], [ToSlay.Move, ToSlay.Move],
               [ToSlay.Range], [ToSlay.Melee, ToSlay.Range], [ToSlay.Melee, ToSlay.Melee]],
  current_hits := List.replicate 14 [],
  alive := List.replicate 14 true }

/-- A concrete mid-session game state used to evaluate the theorems. -/
def testGame : Game := {
  state := State.Playing, monsters := testMonsters,
  player_index := 0, player_kind := PlayerKind.Regular,
  companion_index := 3, companion_kind := CompanionKind.Melee,
  deck := [2, 5, 1, 4, 3], hand := [3, 1, 4, 2, 5], hand_limit := 5,
  current_action := none, current_card := none,
  discarded := false, payments := 1, trophies := 0 }

/-- `testGame` about to resolve Melee(Character) with card 0 (value 3)
against monster 0 (strength 3, kill requirement `[Melee]`). -/
def gMelee : Game :=
  { testGame with current_action := some (Action.Melee Entity.Character), current_card := some 0 }

/-- `testGame` at position 12 about to resolve Range(Character, Right)
with card 4 (value 5): the target index 17 is out of range. -/
def gRangeOOB : Game :=
  { testGame with player_index := 12,
                  current_action := some (Action.Range Entity.Character Direction.Right),
                  current_card := some 4 }

/-- `testGame` with hand `[2, 4]` about to resolve Move(Character, Right)
with card 0 (value 2): the destination monster 2 is a living Noxious one. -/
def gMoveNox : Game :=
  { testGame with hand := [2, 4],
                  current_action := some (Action.Move Entity.Character Direction.Right),
                  current_card := some 0 }

/-- `testGame` with the EndTurn action selected and no card selected. -/
def gEndTurn : Game := { testGame with current_action := some Action.EndTurn }

/-- `testGame` with a pending Melee hit already recorded on monster 0
(kill requirement `[Melee]`), ready to be killed. -/
def gKill : Game :=
  { testGame with monsters := { testMonsters with
      current_hits := (List.replicate 14 ([] : List ToSlay)).set 0 [ToSlay.Melee] } }

/-- `testGame` with monster 1 dead, about to resolve Move(Character,
Right) with card 1 (value 1), landing on the dead monster's position. -/
def gDeadMove : Game :=
  { testGame with
      monsters := { testMonsters with alive := (List.replicate 14 true).set 1 false },
      current_action := some (Action.Move Entity.Character Direction.Right),
      current_card := some 1 }

/-- `testGame` with a single card in hand, about to resolve Move onto the
living Noxious monster at index 2: the Noxious discard then draws from an
empty hand. -/
def gNoxPanic : Game :=
  { testGame with hand := [2],
                  current_action := some (Action.Move Entity.Character Direction.Right),
                  current_card := some 0 }

/-- `testGame` with an empty hand (and the discarded flag clear). -/
def gHandEmpty : Game := { testGame with hand := [] }

/-- `testGame` with one card in hand and an empty deck, about to resolve
Swap: afterwards both hand and deck are empty. -/
def gEndGame : Game :=
  { testGame with hand := [4], deck := [],
                  current_action := some Action.Swap, current_card := some 0 }

/-- The result of a panic-free `update` with no new click and random seed 0. -/
def upd (g : Game) : Game := (Game.update g [] 0).getD g

/-! ### Generic list helpers -/

theorem getD_set_self {α : Type} (l : List α) (i : Nat) (x d : α) (h : i < l.length) :
    (l.set i x).getD i d = x := by
  simp [List.getD_eq_getElem?_getD, List.getElem?_set, h]

theorem getD_set_ne {α : Type} (l : List α) {i j : Nat} (x d : α) (h : i ≠ j) :
    (l.set i x).getD j d = l.getD j d := by
  simp [List.getD_eq_getElem?_getD, List.getElem?_set_ne h]

theorem getD_lt_length {α : Type} {l : List α} {i : Nat} {x d : α}
    (h : l.getD i d = x) (hne : x ≠ d) : i < l.length := by
  by_contra hge
  rw [List.getD_eq_getElem?_getD, List.getElem?_eq_none (Nat.le_of_not_lt hge)] at h
  exact hne h.symm

/-! ### Phase lemmas: which state components each phase of `update` can touch -/

/-- Combat resolution never touches the game state tag, the deck, the
score counters, the player kind, the hand limit, nor any monster field
other than `current_hits` (it also moves entity indices and the hand). -/
theorem combatPhase_preserves {g : Game} {r : Nat} {g' : Game} {cm : Option Nat} {rs tr : Bool}
    (h : combatPhase g r = some (g', cm, rs, tr)) :
    g'.state = g.state ∧ g'.deck = g.deck ∧ g'.payments = g.payments ∧
    g'.trophies = g.trophies ∧ g'.player_kind = g.player_kind ∧
    g'.hand_limit = g.hand_limit ∧ g'.discarded = (g.discarded || g'.discarded) ∧
    g'.monsters.alive = g.monsters.alive ∧
    g'.monsters.strengths = g.monsters.strengths ∧
    g'.monsters.strength_adjustments = g.monsters.strength_adjustments ∧
    g'.monsters.abilities = g.monsters.abilities ∧
    g'.monsters.to_slays = g.monsters.to_slays := by
  rcases hA : g.current_action with _ | a
  · simp only [combatPhase, hA] at h
    simp only [Option.some.injEq, Prod.mk.injEq] at h
    obtain ⟨hg, -⟩ := h
    subst hg
    simp
  · rcases hC : g.current_card with _ | i <;> cases a <;>
      simp only [combatPhase, hA, hC] at h <;>
      repeat' (first
        | (exact Option.noConfusion h)
        | split at h)
    all_goals simp only [Option.some.injEq, Prod.mk.injEq] at h
    all_goals obtain ⟨hg, -⟩ := h
    all_goals subst hg
    all_goals simp [Monsters.addHit]


/-- The kill check only touches `alive`, `current_hits` and `trophies`. -/
theorem killCheck_preserves (g : Game) (cm : Option Nat) (tr : Bool) :
    (killCheck g cm tr).hand = g.hand ∧ (killCheck g cm tr).deck = g.deck ∧
    (killCheck g cm tr).state = g.state ∧ (killCheck g cm tr).payments = g.payments ∧
    (killCheck g cm tr).player_index = g.player_index ∧
    (killCheck g cm tr).companion_index = g.companion_index ∧
    (killCheck g cm tr).player_kind = g.player_kind ∧
    (killCheck g cm tr).companion_kind = g.companion_kind ∧
    (killCheck g cm tr).hand_limit = g.hand_limit ∧
    (killCheck g cm tr).discarded = g.discarded ∧
    (killCheck g cm tr).current_action = g.current_action ∧
    (killCheck g cm tr).current_card = g.current_card ∧
    (killCheck g cm tr).monsters.strengths = g.monsters.strengths ∧
    (killCheck g cm tr).monsters.strength_adjustments = g.monsters.strength_adjustments ∧
    (killCheck g cm tr).monsters.abilities = g.monsters.abilities ∧
    (killCheck g cm tr).monsters.to_slays = g.monsters.to_slays := by
  rcases cm with _ | index
  · simp [killCheck]
  · simp only [killCheck]
    repeat' split
    all_goals simp

/-- A dead monster stays dead through the kill check. -/
theorem killCheck_alive_mono {g : Game} {cm : Option Nat} {tr : Bool} {j : Nat}
    (h : g.monsters.alive.getD j false = false) :
    (killCheck g cm tr).monsters.alive.getD j false = false := by
  rcases cm with _ | index
  · exact h
  · simp only [killCheck]
    repeat' split
    all_goals try exact h
    all_goals simp only [List.getD_eq_getElem?_getD, List.getElem?_set] at h ⊢
    all_goals by_cases hij : index = j
    all_goals simp_all

/-- The lifecycle tail only touches hand, deck, hand limit, player kind,
state, current hits and the discarded flag. -/
theorem lifecycle_preserves (g : Game) (rs : Bool) :
    (lifecycle g rs).payments = g.payments ∧ (lifecycle g rs).trophies = g.trophies ∧
    (lifecycle g rs).player_index = g.player_index ∧
    (lifecycle g rs).companion_index = g.companion_index ∧
    (lifecycle g rs).companion_kind = g.companion_kind ∧
    (lifecycle g rs).current_action = g.current_action ∧
    (lifecycle g rs).current_card = g.current_card ∧
    (lifecycle g rs).monsters.alive = g.monsters.alive ∧
    (lifecycle g rs).monsters.strengths = g.monsters.strengths ∧
    (lifecycle g rs).monsters.strength_adjustments = g.monsters.strength_adjustments ∧
    (lifecycle g rs).monsters.abilities = g.monsters.abilities ∧
    (lifecycle g rs).monsters.to_slays = g.monsters.to_slays ∧
    (lifecycle g rs).discarded = false := by
  simp only [lifecycle, resetRefill]
  repeat' split
  all_goals simp

/-- The Rally recompute only touches `strength_adjustments`. -/
theorem rallyRecompute_preserves (m : Monsters) :
    (m.rallyRecompute).names = m.names ∧ (m.rallyRecompute).strengths = m.strengths ∧
    (m.rallyRecompute).abilities = m.abilities ∧ (m.rallyRecompute).to_slays = m.to_slays ∧
    (m.rallyRecompute).current_hits = m.current_hits ∧ (m.rallyRecompute).alive = m.alive := by
  simp [Monsters.rallyRecompute]

/-- C3: for every Melee(entity) resolution with selected card value `num`
targeting the monster at the acting entity's current index with effective
strength `s`, and no movement: a Melee hit marker is recorded on that
monster iff `num ≥ s`, and the trophy flag handed to the kill check is set
iff `num = s` exactly; neither entity moves, and on a whiffed Melee the
monsters are untouched. -/
theorem melee_resolution_spec (g : Game) (e : Entity) (i r : Nat)
    (hA : g.current_action = some (Action.Melee e))
    (hC : g.current_card = some i)
    (hi : i < g.hand.length)
    (hidx : entityIndex g e < g.monsters.current_hits.length) :
    ((combatPhase g r).map (fun out => out.1.monsters.current_hits.getD (entityIndex g e) [])
        = some (if effStrength g (entityIndex g e) ≤ g.hand.getD i 0
                then g.monsters.current_hits.getD (entityIndex g e) [] ++ [ToSlay.Melee]
                else g.monsters.current_hits.getD (entityIndex g e) [])) ∧
    ((combatPhase g r).map (fun out => out.2.2.2)
        = some (g.hand.getD i 0 == effStrength g (entityIndex g e))) ∧
    ((combatPhase g r).map (fun out => out.1.player_index) = some g.player_index) ∧
    ((combatPhase g r).map (fun out => out.1.companion_index) = some g.companion_index) ∧
    (¬ effStrength g (entityIndex g e) ≤ g.hand.getD i 0 →
      (combatPhase g r).map (fun out => out.1.monsters) = some g.monsters) := by
  cases e <;>
    simp only [entityIndex] at hidx ⊢ <;>
    simp only [combatPhase, hA, hC, effStrength, Monsters.addHit, hi, if_true,
      Option.map_some, Option.map_some', Option.some.injEq] <;>
    split_ifs <;>
    simp_all [getD_set_self _ _ _ _ hidx] <;>
    omega

/-- Witness for `melee_resolution_spec`: `gMelee` plays card value 3
against monster 0 of effective strength 3 — the Melee marker is recorded. -/
theorem melee_resolution_spec_witness :
    gMelee.current_action = some (Action.Melee Entity.Character) ∧
    gMelee.current_card = some 0 ∧
    0 < gMelee.hand.length ∧
    entityIndex gMelee Entity.Character < gMelee.monsters.current_hits.length ∧
    ((combatPhase gMelee 0).map
        (fun out => out.1.monsters.current_hits.getD (entityIndex gMelee Entity.Character) [])
      = some (if effStrength gMelee (entityIndex gMelee Entity.Character) ≤ gMelee.hand.getD 0 0
              then gMelee.monsters.current_hits.getD (entityIndex gMelee Entity.Character) [] ++ [ToSlay.Melee]
              else gMelee.monsters.current_hits.getD (entityIndex gMelee Entity.Character) [])) :=
  ⟨rfl, rfl, by decide, by decide,
   (melee_resolution_spec gMelee Entity.Character 0 0 rfl rfl (by decide) (by decide)).1⟩

/-- C6: a Range resolution whose computed target index falls outside
`[0, N-1]` spends the played card (hand shrinks by exactly one), records
no hit marker, awards no trophy flag, moves nothing, changes no monster
state, and does not abort: the whole resolution is
`hand.eraseIdx i` plus clearing the two selection slots. -/
theorem range_out_of_bounds_noop (g : Game) (e : Entity) (d : Direction) (i r : Nat)
    (hA : g.current_action = some (Action.Range e d))
    (hC : g.current_card = some i)
    (hi : i < g.hand.length)
    (hoorL : d = Direction.Left → entityIndex g e < g.hand.getD i 0)
    (hoorR : d = Direction.Right → MONSTER_DECK_SIZE ≤ entityIndex g e + g.hand.getD i 0) :
    combatPhase g r
      = some ({ g with hand := g.hand.eraseIdx i, current_action := none, current_card := none },
              none, false, false) ∧
    (g.hand.eraseIdx i).length + 1 = g.hand.length := by
  refine ⟨?_, by simp [List.length_eraseIdx, hi]; omega⟩
  cases d
  · have hL := hoorL rfl
    cases e <;>
      simp only [entityIndex] at hL <;>
      simp only [combatPhase, hA, hC, hi, if_true] <;>
      split_ifs with hc <;>
      first
        | exact absurd hc (by omega)
        | simp
  · have hR := hoorR rfl
    cases e <;>
      simp only [entityIndex] at hR <;>
      simp only [combatPhase, hA, hC, hi, if_true] <;>
      split_ifs with hc <;>
      first
        | exact absurd hc (by omega)
        | simp

/-- Witness for `range_out_of_bounds_noop`: the out-of-range Range shot
spends the card and does nothing else. -/
theorem range_out_of_bounds_noop_witness :
    gRangeOOB.current_action = some (Action.Range Entity.Character Direction.Right) ∧
    gRangeOOB.current_card = some 4 ∧
    4 < gRangeOOB.hand.length ∧
    MONSTER_DECK_SIZE ≤ entityIndex gRangeOOB Entity.Character + gRangeOOB.hand.getD 4 0 ∧
    combatPhase gRangeOOB 0
      = some ({ gRangeOOB with hand := gRangeOOB.hand.eraseIdx 4,
                               current_action := none, current_card := none },
              none, false, false) :=
  ⟨rfl, rfl, by decide, by decide,
   (range_out_of_bounds_noop gRangeOOB Entity.Character Direction.Right 4 0 rfl rfl
      (by decide) (by intro h; exact absurd h (by decide)) (fun _ => by decide)).1⟩

/-- C5: a Move(entity, direction) resolution with card value `num` moves
the chosen entity to `max(0, index - num)` (Left) or
`min(N-1, index + num)` (Right), records a Move hit marker on the monster
at the destination, and — exactly when the destination monster is a
living Noxious one — discards one additional card (at the position the
random draw selects) from the remaining hand and sets the discarded flag,
so that the hand shrinks by exactly two cards in total. -/
theorem move_resolution_spec (g : Game) (e : Entity) (d : Direction) (i r : Nat)
    (hA : g.current_action = some (Action.Move e d))
    (hC : g.current_card = some i)
    (hi : i < g.hand.length)
    (hhits : MONSTER_DECK_SIZE ≤ g.monsters.current_hits.length)
    (hpi : g.player_index < MONSTER_DECK_SIZE)
    (hci : g.companion_index < MONSTER_DECK_SIZE)
    (hnx : noxiousLanding g (moveTarget g e d (g.hand.getD i 0)) = true →
           (g.hand.eraseIdx i).length ≠ 0) :
    (d = Direction.Left →
       moveTarget g e d (g.hand.getD i 0) = entityIndex g e - g.hand.getD i 0) ∧
    (d = Direction.Right →
       moveTarget g e d (g.hand.getD i 0)
         = min (MONSTER_DECK_SIZE - 1) (entityIndex g e + g.hand.getD i 0)) ∧
    ((combatPhase g r).map (fun out => entityIndex out.1 e)
       = some (moveTarget g e d (g.hand.getD i 0))) ∧
    ((combatPhase g r).map
        (fun out => out.1.monsters.current_hits.getD (moveTarget g e d (g.hand.getD i 0)) [])
       = some (g.monsters.current_hits.getD (moveTarget g e d (g.hand.getD i 0)) []
               ++ [ToSlay.Move])) ∧
    ((combatPhase g r).map (fun out => out.1.hand)
       = some (if noxiousLanding g (moveTarget g e d (g.hand.getD i 0))
               then (g.hand.eraseIdx i).eraseIdx (r % (g.hand.eraseIdx i).length)
               else g.hand.eraseIdx i)) ∧
    ((combatPhase g r).map (fun out => out.1.discarded)
       = some (if noxiousLanding g (moveTarget g e d (g.hand.getD i 0)) then true
               else g.discarded)) ∧
    (noxiousLanding g (moveTarget g e d (g.hand.getD i 0)) = true →
       ((g.hand.eraseIdx i).eraseIdx (r % (g.hand.eraseIdx i).length)).length + 2
         = g.hand.length) := by
  have hlt : moveTarget g e d (g.hand.getD i 0) < g.monsters.current_hits.length := by
    cases e <;> cases d <;>
      simp only [moveTarget, entityIndex, MONSTER_DECK_SIZE] at hhits hpi hci ⊢ <;>
      first
        | (split_ifs <;> omega)
        | omega
  have hformulaL : d = Direction.Left →
      moveTarget g e d (g.hand.getD i 0) = entityIndex g e - g.hand.getD i 0 := by
    intro hd
    subst hd
    simp [moveTarget]
  have hformulaR : d = Direction.Right →
      moveTarget g e d (g.hand.getD i 0)
        = min (MONSTER_DECK_SIZE - 1) (entityIndex g e + g.hand.getD i 0) := by
    intro hd
    subst hd
    simp only [moveTarget, Nat.min_def]
    split_ifs <;> omega
  have hlast : noxiousLanding g (moveTarget g e d (g.hand.getD i 0)) = true →
      ((g.hand.eraseIdx i).eraseIdx (r % (g.hand.eraseIdx i).length)).length + 2
        = g.hand.length := by
    intro hnox
    have hne := hnx hnox
    have hk : r % (g.hand.eraseIdx i).length < (g.hand.eraseIdx i).length :=
      Nat.mod_lt _ (Nat.pos_of_ne_zero hne)
    rw [List.length_eraseIdx, if_pos hk, List.length_eraseIdx, if_pos hi]
    rw [List.length_eraseIdx, if_pos hi] at hne
    omega
  refine ⟨hformulaL, hformulaR, ?_⟩
  by_cases hnox : noxiousLanding g (moveTarget g e d (g.hand.getD i 0)) = true
  · have hne := hnx hnox
    have hlen0 : ¬ (((g.hand.eraseIdx i).length == 0) = true) := by simpa using hne
    refine ?_
    cases e <;> cases d <;>
      (simp only [noxiousLanding, Monsters.isNoxiousAt, moveTarget, entityIndex] at hnox hlt
       simp only [combatPhase, hA, hC, hi, if_true, Monsters.addHit, Monsters.isNoxiousAt]
       rw [if_pos hnox, if_neg hlen0]
       refine ⟨?_, ?_, ?_, ?_, hlast⟩ <;>
         simp [moveTarget, entityIndex, noxiousLanding, Monsters.isNoxiousAt, hnox,
           getD_set_self _ _ _ _ hlt, -List.getD_eq_getElem?_getD])
  · cases e <;> cases d <;>
      (simp only [noxiousLanding, Monsters.isNoxiousAt, moveTarget, entityIndex] at hnox hlt
       simp only [combatPhase, hA, hC, hi, if_true, Monsters.addHit, Monsters.isNoxiousAt]
       rw [if_neg hnox]
       refine ⟨?_, ?_, ?_, ?_, hlast⟩ <;>
         simp [moveTarget, entityIndex, noxiousLanding, Monsters.isNoxiousAt, hnox,
           getD_set_self _ _ _ _ hlt, -List.getD_eq_getElem?_getD])

/-- Witness for `move_resolution_spec`: moving onto the living Noxious
monster at index 2 discards a second card and sets the discarded flag. -/
theorem move_resolution_spec_witness :
    gMoveNox.current_action = some (Action.Move Entity.Character Direction.Right) ∧
    gMoveNox.current_card = some 0 ∧
    0 < gMoveNox.hand.length ∧
    noxiousLanding gMoveNox
      (moveTarget gMoveNox Entity.Character Direction.Right (gMoveNox.hand.getD 0 0)) = true ∧
    ((combatPhase gMoveNox 5).map (fun out => out.1.hand)
       = some (if noxiousLanding gMoveNox
                   (moveTarget gMoveNox Entity.Character Direction.Right (gMoveNox.hand.getD 0 0))
               then (gMoveNox.hand.eraseIdx 0).eraseIdx (5 % (gMoveNox.hand.eraseIdx 0).length)
               else gMoveNox.hand.eraseIdx 0)) ∧
    ((combatPhase gMoveNox 5).map (fun out => out.1.discarded)
       = some (if noxiousLanding gMoveNox
                   (moveTarget gMoveNox Entity.Character Direction.Right (gMoveNox.hand.getD 0 0))
               then true else gMoveNox.discarded)) :=
  ⟨rfl, rfl, by decide, by decide,
   (move_resolution_spec gMoveNox Entity.Character Direction.Right 0 5 rfl rfl
      (by decide) (by decide) (by decide) (by decide) (fun _ => by decide)).2.2.2.2.1,
   (move_resolution_spec gMoveNox Entity.Character Direction.Right 0 5 rfl rfl
      (by decide) (by decide) (by decide) (by decide) (fun _ => by decide)).2.2.2.2.2.1⟩

/-- Counterexample to C1 as stated: with the Action slot holding EndTurn
and the Card slot empty, resolution still fires — the combat phase marks
pending-reset (`reset = true`), and the update observably refills the
hand — so "resolution occurs only when both slots are simultaneously
filled ... including EndTurn" is false, as is "the selected card is
consumed" (there is no selected card and none is consumed). -/
theorem endturn_fires_without_card_selected :
    gEndTurn.current_card = none ∧
    ((combatPhase gEndTurn 0).map (fun out => out.2.2.1)) = some true ∧
    ((combatPhase gEndTurn 0).map (fun out => out.1.hand.length)) = some gEndTurn.hand.length ∧
    ((Game.update gEndTurn [] 0).map (fun g1 => g1.hand)) = some [3, 4, 1, 5, 2] ∧
    gEndTurn.hand ≠ [3, 4, 1, 5, 2] := by
  refine ⟨rfl, by decide, by decide, by decide, by decide⟩

/-- C1 amended: for Move, Swap, Range and Melee the combat phase resolves
only when both the Action slot and the Card slot are filled — otherwise
it is a complete no-op — and a resolution consumes at least the selected
card and clears both slots.  EndTurn is the exception: it resolves as
soon as the Action slot holds it, regardless of the Card slot, consumes
no card, marks pending-reset, and clears both slots. -/
theorem resolution_slot_discipline (g : Game) (r : Nat) :
    ((g.current_action = none ∨
        (g.current_card = none ∧ g.current_action ≠ some Action.EndTurn)) →
      combatPhase g r = some (g, none, false, false)) ∧
    (∀ a i out, g.current_action = some a → g.current_card = some i →
      combatPhase g r = some out →
      out.1.current_action = none ∧ out.1.current_card = none ∧
      (a ≠ Action.EndTurn → out.1.hand.length < g.hand.length)) ∧
    (g.current_action = some Action.EndTurn →
      combatPhase g r
        = some ({ g with current_action := none, current_card := none }, none, true, false)) := by
  refine ⟨?_, ?_, ?_⟩
  · intro h
    rcases h with h | ⟨hc, hne⟩
    · simp [combatPhase, h]
    · rcases hA : g.current_action with _ | a
      · simp [combatPhase, hA]
      · cases a <;> first
          | exact absurd hA hne
          | simp [combatPhase, hA, hc]
  · intro a i out hA hC hcp
    cases a
    all_goals try cases ‹Direction›
    all_goals simp only [combatPhase, hA, hC] at hcp
    all_goals repeat' (first
      | (exact Option.noConfusion hcp)
      | split at hcp)
    all_goals simp only [Option.some.injEq] at hcp
    all_goals subst hcp
    all_goals refine ⟨by simp, by simp, fun hne => ?_⟩
    all_goals first
      | (exact absurd rfl hne)
      | (simp only [beq_iff_eq, List.length_eraseIdx] at *
         split_ifs <;> omega)
  · intro hA
    rcases hC : g.current_card with _ | i <;> simp [combatPhase, hA, hC]

/-- Witness for `resolution_slot_discipline`: no action selected on
`testGame` means the combat phase is a no-op; and a Swap resolution on a
fully selected state consumes a card and clears both slots. -/
theorem resolution_slot_discipline_witness :
    (testGame.current_action = none ∧ combatPhase testGame 0 = some (testGame, none, false, false)) ∧
    (gEndTurn.current_action = some Action.EndTurn ∧
      combatPhase gEndTurn 0
        = some ({ gEndTurn with current_action := none, current_card := none },
                none, true, false)) :=
  ⟨⟨rfl, (resolution_slot_discipline testGame 0).1 (Or.inl rfl)⟩,
   ⟨rfl, (resolution_slot_discipline gEndTurn 0).2.2 rfl⟩⟩

/-- The clickables loop only touches the two selection slots and (on a
Reset click) the state tag. -/
theorem processClicks_preserves (clicks : List ClickableType) (g : Game) :
    ((processClicks g clicks).1).monsters = g.monsters ∧
    ((processClicks g clicks).1).hand = g.hand ∧
    ((processClicks g clicks).1).deck = g.deck ∧
    ((processClicks g clicks).1).payments = g.payments ∧
    ((processClicks g clicks).1).trophies = g.trophies ∧
    ((processClicks g clicks).1).player_index = g.player_index ∧
    ((processClicks g clicks).1).companion_index = g.companion_index ∧
    ((processClicks g clicks).1).player_kind = g.player_kind ∧
    ((processClicks g clicks).1).companion_kind = g.companion_kind ∧
    ((processClicks g clicks).1).hand_limit = g.hand_limit ∧
    ((processClicks g clicks).1).discarded = g.discarded := by
  induction clicks generalizing g with
  | nil => simp [processClicks]
  | cons c rest ih =>
    cases c with
    | ActionC a => simpa [processClicks] using ih { g with current_action := some a }
    | CardC i => simpa [processClicks] using ih { g with current_card := some i }
    | StateC s =>
      cases s <;> simp [processClicks] <;> exact ih g

/-- Every monster that is dead stays dead across one whole `update`. -/
theorem update_alive_mono (g : Game) (clicks : List ClickableType) (r : Nat) (g2 : Game)
    (hup : Game.update g clicks r = some g2) (j : Nat)
    (hdead : g.monsters.alive.getD j false = false) :
    g2.monsters.alive.getD j false = false := by
  unfold Game.update at hup
  have hpc := (processClicks_preserves clicks g).1
  rcases hearly : (processClicks g clicks).2 with - | -
  · rw [if_neg (by simp [hearly])] at hup
    rcases hcb : combatPhase (processClicks g clicks).1 r with - | ⟨gc, cm, rs, tr⟩
    · rw [hcb] at hup
      exact Option.noConfusion hup
    · rw [hcb] at hup
      simp only [Option.some.injEq] at hup
      subst hup
      have hcomb := (combatPhase_preserves hcb).2.2.2.2.2.2.2.1
      have hdead2 : gc.monsters.alive.getD j false = false := by
        rw [hcomb, hpc]
        exact hdead
      have hkill : (killCheck gc cm tr).monsters.alive.getD j false = false :=
        killCheck_alive_mono hdead2
      have hlife := (lifecycle_preserves
        { killCheck gc cm tr with monsters := (killCheck gc cm tr).monsters.rallyRecompute } rs).2.2.2.2.2.2.2.1
      rw [hlife]
      simpa [(rallyRecompute_preserves (killCheck gc cm tr).monsters).2.2.2.2.2] using hkill
  · rw [if_pos (by simp [hearly])] at hup
    simp only [Option.some.injEq] at hup
    subst hup
    rw [hpc]
    exact hdead

/-- C2: the kill check on a living monster `i` flips its alive flag to
false exactly when removing each accumulated hit one-for-one from a
working copy of its kill requirements empties the copy (and the removal
is order-irrelevant); on that kill the monster's current hits are
cleared and a trophy is awarded iff the resolving action qualified as an
exact-strength hit (`tr`).  Once false, an alive flag never becomes true
again within the session. -/
theorem kill_check_spec (g : Game) (i : Nat) (tr : Bool)
    (halive : g.monsters.alive.getD i false = true) :
    ((killCheck g (some i) tr).monsters.alive.getD i false = false ↔
       (g.monsters.current_hits.getD i []).foldl (fun acc h => acc.erase h)
         (g.monsters.to_slays.getD i []) = []) ∧
    ((g.monsters.current_hits.getD i []).foldl (fun acc h => acc.erase h)
         (g.monsters.to_slays.getD i []) = [] →
       (killCheck g (some i) tr).monsters.current_hits.getD i [] = [] ∧
       (killCheck g (some i) tr).trophies
         = (if tr then g.trophies + 1 else g.trophies)) ∧
    (∀ hits2 : List ToSlay, hits2.Perm (g.monsters.current_hits.getD i []) →
       hits2.foldl (fun acc h => acc.erase h) (g.monsters.to_slays.getD i [])
         = (g.monsters.current_hits.getD i []).foldl (fun acc h => acc.erase h)
             (g.monsters.to_slays.getD i [])) ∧
    (∀ g2 clicks r g2', Game.update g2 clicks r = some g2' →
       ∀ j, g2.monsters.alive.getD j false = false →
         g2'.monsters.alive.getD j false = false) := by
  have halen : i < g.monsters.alive.length := getD_lt_length halive (by simp)
  refine ⟨?_, ?_, ?_, update_alive_mono⟩
  · simp only [killCheck, halive]
    by_cases hts : ((g.monsters.current_hits.getD i []).foldl (fun acc h => acc.erase h)
        (g.monsters.to_slays.getD i [])).length = 0
    · have hset : (g.monsters.alive.set i false).getD i false = false :=
        getD_set_self _ _ _ _ halen
      cases tr <;>
        simp [hts, hset, List.length_eq_zero.mp hts, -List.getD_eq_getElem?_getD]
    · have hr : ¬ ((g.monsters.current_hits.getD i []).foldl (fun acc h => acc.erase h)
          (g.monsters.to_slays.getD i []) = []) := by
        intro hc
        rw [hc] at hts
        exact hts rfl
      simp only [hts, if_false, halive, hr]
      simpa using halive
  · intro hts
    have hts' := List.length_eq_zero.mpr hts
    simp only [killCheck, halive, hts']
    by_cases hlt : i < g.monsters.current_hits.length
    · cases tr <;> simp [getD_set_self _ _ _ _ hlt, -List.getD_eq_getElem?_getD]
    · cases tr <;>
        simp [List.getD_eq_getElem?_getD, List.getElem?_set, hlt,
          List.getElem?_eq_none (Nat.le_of_not_lt hlt)]
  · intro hits2 hperm
    have hdiff := List.Perm.diff_left (g.monsters.to_slays.getD i []) hperm
    simpa [List.diff_eq_foldl] using hdiff

/-- Witness for `kill_check_spec`: monster 0 of `gKill` has accumulated
`[Melee]` against kill requirement `[Melee]`; the kill check kills it and
awards the trophy. -/
theorem kill_check_spec_witness :
    gKill.monsters.alive.getD 0 false = true ∧
    ((killCheck gKill (some 0) true).monsters.alive.getD 0 false = false ↔
      (gKill.monsters.current_hits.getD 0 []).foldl (fun acc h => acc.erase h)
        (gKill.monsters.to_slays.getD 0 []) = []) ∧
    ((killCheck gKill (some 0) true).monsters.current_hits.getD 0 [] = [] ∧
      (killCheck gKill (some 0) true).trophies
        = (if true then gKill.trophies + 1 else gKill.trophies)) :=
  ⟨by decide, (kill_check_spec gKill 0 true (by decide)).1,
   (kill_check_spec gKill 0 true (by decide)).2.1 (by decide)⟩

/-- The lifecycle tail either leaves the current hits alone or (on a
reset) clears every monster's current hits. -/
theorem lifecycle_hits (g : Game) (rs : Bool) :
    (lifecycle g rs).monsters.current_hits = g.monsters.current_hits ∨
    (lifecycle g rs).monsters.current_hits = g.monsters.current_hits.map (fun _ => []) := by
  simp only [lifecycle, resetRefill]
  repeat' split
  all_goals simp

/-- `getD` of a constant-`[]` map is `[]` at every index. -/
theorem getD_map_nil (l : List (List ToSlay)) (j : Nat) :
    (l.map (fun _ => ([] : List ToSlay))).getD j [] = [] := by
  rcases h : l[j]? with - | x <;>
    simp [List.getD_eq_getElem?_getD, List.getElem?_map, h]

/-- If the kill check flips monster `i` from alive to dead, it also
clears that monster's current hits. -/
theorem killCheck_flip_clears {g : Game} {cm : Option Nat} {tr : Bool} {i : Nat}
    (halive : g.monsters.alive.getD i false = true)
    (hdead : (killCheck g cm tr).monsters.alive.getD i false = false) :
    (killCheck g cm tr).monsters.current_hits.getD i [] = [] := by
  rcases cm with - | index
  · rw [show killCheck g none tr = g from rfl] at hdead
    rw [halive] at hdead
    exact Bool.noConfusion hdead
  · simp only [killCheck] at hdead ⊢
    split at hdead
    · split at hdead
      · by_cases hij : index = i
        · subst hij
          cases tr <;>
            simp_all [List.getD_eq_getElem?_getD, List.getElem?_set] <;>
            split_ifs <;> simp
        · cases tr <;>
            simp_all [List.getD_eq_getElem?_getD, List.getElem?_set, hij]
      · rw [halive] at hdead
        exact Bool.noConfusion hdead
    · rw [halive] at hdead
      exact Bool.noConfusion hdead

/-- C4 amended: a monster's current hits are cleared at the instant its
alive flag flips to false: whenever one `update` step flips monster `i`
from alive to dead, the resulting state has `currentHits[i] = []`. -/
theorem hits_cleared_at_death (g : Game) (clicks : List ClickableType) (r : Nat) (g2 : Game)
    (hup : Game.update g clicks r = some g2) (i : Nat)
    (halive : g.monsters.alive.getD i false = true)
    (hdead : g2.monsters.alive.getD i false = false) :
    g2.monsters.current_hits.getD i [] = [] := by
  unfold Game.update at hup
  have hpc := (processClicks_preserves clicks g).1
  rcases hearly : (processClicks g clicks).2 with - | -
  · rw [if_neg (by simp [hearly])] at hup
    rcases hcb : combatPhase (processClicks g clicks).1 r with - | ⟨gc, cm, rs, tr⟩
    · rw [hcb] at hup
      exact Option.noConfusion hup
    · rw [hcb] at hup
      simp only [Option.some.injEq] at hup
      subst hup
      have hcomb := (combatPhase_preserves hcb).2.2.2.2.2.2.2.1
      have halivec : gc.monsters.alive.getD i false = true := by
        rw [hcomb, hpc]
        exact halive
      set gk := killCheck gc cm tr with hgk
      have hdeadk : gk.monsters.alive.getD i false = false := by
        have h1 := (lifecycle_preserves
          { gk with monsters := gk.monsters.rallyRecompute } rs).2.2.2.2.2.2.2.1
        rw [h1] at hdead
        simpa [(rallyRecompute_preserves gk.monsters).2.2.2.2.2] using hdead
      have hclear : gk.monsters.current_hits.getD i [] = [] :=
        killCheck_flip_clears halivec hdeadk
      have hmon : ({ gk with monsters := gk.monsters.rallyRecompute } : Game).monsters.current_hits
          = gk.monsters.current_hits := (rallyRecompute_preserves gk.monsters).2.2.2.2.1
      rcases lifecycle_hits { gk with monsters := gk.monsters.rallyRecompute } rs with hsame | hmap
      · rw [hsame, hmon]
        exact hclear
      · rw [hmap]
        exact getD_map_nil _ i
  · rw [if_pos (by simp [hearly])] at hup
    simp only [Option.some.injEq] at hup
    subst hup
    rw [hpc] at hdead
    rw [halive] at hdead
    exact Bool.noConfusion hdead

/-- Counterexample to C4 as stated: starting from a state where the dead
monster 1 has empty current hits, a Move resolution landing on its
position appends a Move marker to it — so "no operation adds a hit marker
to a dead monster" (and hence "dead implies empty currentHits" as a state
invariant) is false. -/
theorem dead_monster_gains_hit_marker :
    gDeadMove.monsters.alive.getD 1 false = false ∧
    gDeadMove.monsters.current_hits.getD 1 [] = [] ∧
    ((Game.update gDeadMove [] 0).map (fun g1 => g1.monsters.alive.getD 1 false)) = some false ∧
    ((Game.update gDeadMove [] 0).map (fun g1 => g1.monsters.current_hits.getD 1 []))
      = some [ToSlay.Move] := by
  refine ⟨by decide, by decide, by decide, by decide⟩

/-- Witness for `hits_cleared_at_death`: killing monster 0 of `gMelee`
(exact-strength Melee) clears its current hits in the same update. -/
theorem hits_cleared_at_death_witness :
    Game.update gMelee [] 0 = some (upd gMelee) ∧
    gMelee.monsters.alive.getD 0 false = true ∧
    (upd gMelee).monsters.alive.getD 0 false = false ∧
    (upd gMelee).monsters.current_hits.getD 0 [] = [] :=
  ⟨by decide, by decide, by decide,
   hits_cleared_at_death gMelee [] 0 (upd gMelee) (by decide) 0 (by decide) (by decide)⟩

/-- C10: `update` is not total — if the last card in hand is played on a
Move that lands on a living Noxious monster, the random-discard step
reduces modulo the now-empty hand and aborts (modelled as `none`); the
same Move with one more card in hand succeeds. -/
theorem noxious_discard_panics_on_empty_hand :
    (∀ r : Nat, Game.update gNoxPanic [] r = none) ∧
    Game.update gMoveNox [] 5 ≠ none := by
  refine ⟨fun r => rfl, by decide⟩

/-- The refill loop of the reset branch: starting from hand `h` and deck
`d`, `n` iterations pop `min n |d|` cards off the deck tail into the
hand. -/
theorem refill_fold_len (n : Nat) (h d : List Nat) :
    (((List.range n).foldl
      (fun hd _ => match hd.2.getLast? with
        | some new_card => (hd.1 ++ [new_card], hd.2.dropLast)
        | none => hd) (h, d)).1.length = h.length + min n d.length) ∧
    (((List.range n).foldl
      (fun hd _ => match hd.2.getLast? with
        | some new_card => (hd.1 ++ [new_card], hd.2.dropLast)
        | none => hd) (h, d)).2.length = d.length - n) := by
  induction n with
  | zero => simp
  | succ n ih =>
    rw [List.range_succ, List.foldl_append]
    obtain ⟨ih1, ih2⟩ := ih
    rcases hL : ((List.range n).foldl
      (fun hd _ => match hd.2.getLast? with
        | some new_card => (hd.1 ++ [new_card], hd.2.dropLast)
        | none => hd) (h, d)).2.getLast? with - | c
    · have hnil : ((List.range n).foldl
          (fun hd _ => match hd.2.getLast? with
            | some new_card => (hd.1 ++ [new_card], hd.2.dropLast)
            | none => hd) (h, d)).2 = [] := List.getLast?_eq_none_iff.mp hL
      have hlen0 : d.length - n = 0 := by rw [← ih2, hnil]; rfl
      simp only [List.foldl_cons, List.foldl_nil, hL]
      constructor
      · rw [ih1]
        omega
      · rw [ih2]
        omega
    · have hne : ((List.range n).foldl
          (fun hd _ => match hd.2.getLast? with
            | some new_card => (hd.1 ++ [new_card], hd.2.dropLast)
            | none => hd) (h, d)).2 ≠ [] := by
        intro h0
        rw [h0] at hL
        exact Option.noConfusion hL
      have hpos : 0 < d.length - n := by
        rw [← ih2]
        exact List.length_pos.mpr hne
      simp only [List.foldl_cons, List.foldl_nil, hL]
      constructor
      · simp only [List.length_append, List.length_cons, List.length_nil, ih1]
        omega
      · simp only [List.length_dropLast, ih2]
        omega

/-- Hand exhaustion branch of the lifecycle: with an empty hand and no
discard this cycle, the player turns Monstrous with hand limit 6 and the
hand is refilled with up to 6 cards from the deck; all current hits are
cleared. -/
theorem lifecycle_empty_hand (g : Game) (rs : Bool)
    (h0 : g.hand.length = 0) (hd0 : g.discarded = false) :
    (lifecycle g rs).hand_limit = 6 ∧
    (lifecycle g rs).player_kind = PlayerKind.Monstrous ∧
    (lifecycle g rs).hand.length = min 6 g.deck.length ∧
    ∀ j, (lifecycle g rs).monsters.current_hits.getD j [] = [] := by
  have hf := refill_fold_len 6 ([] : List Nat) g.deck
  simp only [lifecycle, resetRefill, h0, hd0]
  norm_num
  split_ifs <;>
    simp [hf.1, getD_map_nil]

/-- EndTurn branch of the lifecycle: with a pending reset and a
non-empty hand, the player kind and hand limit are untouched, the hand is
refilled with up to `hand_limit` cards, and all current hits clear. -/
theorem lifecycle_endturn (g : Game) (hne : g.hand.length ≠ 0) :
    (lifecycle g true).player_kind = g.player_kind ∧
    (lifecycle g true).hand_limit = g.hand_limit ∧
    (lifecycle g true).hand.length = min g.hand_limit g.deck.length ∧
    ∀ j, (lifecycle g true).monsters.current_hits.getD j [] = [] := by
  have hf := refill_fold_len g.hand_limit ([] : List Nat) g.deck
  have hcond : (g.hand.length == 0 && !g.discarded) = false := by
    simp [hne]
  simp only [lifecycle, resetRefill, hcond, Bool.false_eq_true, if_false]
  split_ifs <;>
    simp [hf.1, getD_map_nil]

/-- The lifecycle either keeps the player kind and hand limit or sets
them to Monstrous and 6. -/
theorem lifecycle_kind_limit (g : Game) (rs : Bool) :
    ((lifecycle g rs).player_kind = g.player_kind ∨
      (lifecycle g rs).player_kind = PlayerKind.Monstrous) ∧
    ((lifecycle g rs).hand_limit = g.hand_limit ∨ (lifecycle g rs).hand_limit = 6) := by
  simp only [lifecycle, resetRefill]
  repeat' split
  all_goals simp

/-- C8: (1) at the end of a cycle with an empty hand and no discard this
cycle, the player becomes Monstrous with hand limit 6 and the hand is
refilled with up to 6 deck cards, clearing every monster's current hits;
(2) an EndTurn resolution triggers the same refill and hit clearing
without changing player kind or hand limit when the hand is non-empty;
(3) the Monstrous transition (and the 5 to 6 hand-limit bump) is one-way:
no update reverts player kind or changes the hand limit to anything other
than 6. -/
theorem hand_exhaustion_reset_spec :
    (∀ (g : Game) (rs : Bool), g.hand.length = 0 → g.discarded = false →
      (lifecycle g rs).hand_limit = 6 ∧
      (lifecycle g rs).player_kind = PlayerKind.Monstrous ∧
      (lifecycle g rs).hand.length = min 6 g.deck.length ∧
      (∀ j, (lifecycle g rs).monsters.current_hits.getD j [] = [])) ∧
    (∀ (g : Game) (r : Nat) (g2 : Game),
      g.current_action = some Action.EndTurn → g.hand.length ≠ 0 →
      Game.update g [] r = some g2 →
      g2.player_kind = g.player_kind ∧ g2.hand_limit = g.hand_limit ∧
      g2.hand.length = min g.hand_limit g.deck.length ∧
      (∀ j, g2.monsters.current_hits.getD j [] = [])) ∧
    (∀ (g : Game) (clicks : List ClickableType) (r : Nat) (g2 : Game),
      Game.update g clicks r = some g2 →
      (g.player_kind = PlayerKind.Monstrous → g2.player_kind = PlayerKind.Monstrous) ∧
      (g2.hand_limit = g.hand_limit ∨ g2.hand_limit = 6)) := by
  refine ⟨lifecycle_empty_hand, ?_, ?_⟩
  · intro g r g2 hA hne hup
    simp only [Game.update, processClicks, combatPhase, hA, killCheck,
      Bool.false_eq_true, if_false, Option.some.injEq] at hup
    subst hup
    have := lifecycle_endturn
      { { g with current_card := none, current_action := none } with
          monsters := ({ g with current_card := none, current_action := none } :
            Game).monsters.rallyRecompute } (by simpa using hne)
    simpa using this
  · intro g clicks r g2 hup
    unfold Game.update at hup
    have hpk := (processClicks_preserves clicks g).2.2.2.2.2.2.2.1
    have hpl := (processClicks_preserves clicks g).2.2.2.2.2.2.2.2.2.1
    rcases hearly : (processClicks g clicks).2 with - | -
    · rw [if_neg (by simp [hearly])] at hup
      rcases hcb : combatPhase (processClicks g clicks).1 r with - | ⟨gc, cm, rs, tr⟩
      · rw [hcb] at hup
        exact Option.noConfusion hup
      · rw [hcb] at hup
        simp only [Option.some.injEq] at hup
        subst hup
        have hck := (combatPhase_preserves hcb).2.2.2.2.1
        have hcl := (combatPhase_preserves hcb).2.2.2.2.2.1
        set gk := killCheck gc cm tr with hgk
        have hkk := (killCheck_preserves gc cm tr).2.2.2.2.2.2.1
        have hkl := (killCheck_preserves gc cm tr).2.2.2.2.2.2.2.2.1
        have hll := lifecycle_kind_limit
          { gk with monsters := gk.monsters.rallyRecompute } rs
        constructor
        · intro hm
          rcases hll.1 with h1 | h1
          · rw [h1]
            show gk.player_kind = PlayerKind.Monstrous
            rw [← hgk] at hkk
            rw [hkk, hck, hpk]
            exact hm
          · exact h1
        · rcases hll.2 with h2 | h2
          · rw [h2]
            left
            show gk.hand_limit = g.hand_limit
            rw [← hgk] at hkl
            rw [hkl, hcl, hpl]
          · right
            exact h2
    · rw [if_pos (by simp [hearly])] at hup
      simp only [Option.some.injEq] at hup
      subst hup
      constructor
      · intro hm
        rw [hpk]
        exact hm
      · left
        exact hpl

/-- Witness for `hand_exhaustion_reset_spec`: exhausting the hand of
`gHandEmpty` turns the player Monstrous with limit 6 and refills from the
deck; `gEndTurn`'s EndTurn refills without changing kind or limit. -/
theorem hand_exhaustion_reset_spec_witness :
    (gHandEmpty.hand.length = 0 ∧ gHandEmpty.discarded = false ∧
      (lifecycle gHandEmpty false).hand_limit = 6 ∧
      (lifecycle gHandEmpty false).player_kind = PlayerKind.Monstrous ∧
      (lifecycle gHandEmpty false).hand.length = min 6 gHandEmpty.deck.length) ∧
    (gEndTurn.current_action = some Action.EndTurn ∧ gEndTurn.hand.length ≠ 0 ∧
      Game.update gEndTurn [] 0 = some (upd gEndTurn) ∧
      (upd gEndTurn).player_kind = gEndTurn.player_kind ∧
      (upd gEndTurn).hand_limit = gEndTurn.hand_limit) := by
  have h1 := (hand_exhaustion_reset_spec.1 gHandEmpty false (by decide) (by decide))
  have h2 := (hand_exhaustion_reset_spec.2.1 gEndTurn 0 (upd gEndTurn) rfl (by decide) (by decide))
  exact ⟨⟨by decide, by decide, h1.1, h1.2.1, h1.2.2.1⟩,
         ⟨rfl, by decide, by decide, h2.1, h2.2.1⟩⟩

/-- If no Reset clickable was hit, the clickables loop leaves the state
tag alone. -/
theorem processClicks_state (clicks : List ClickableType) (g : Game)
    (hne : (processClicks g clicks).2 = false) :
    (processClicks g clicks).1.state = g.state := by
  induction clicks generalizing g with
  | nil => rfl
  | cons c rest ih =>
    cases c with
    | ActionC a =>
      simp only [processClicks] at hne ⊢
      exact ih _ hne
    | CardC i =>
      simp only [processClicks] at hne ⊢
      exact ih _ hne
    | StateC s =>
      cases s with
      | Playing =>
        simp only [processClicks] at hne ⊢
        exact ih _ hne
      | EndGame =>
        simp only [processClicks] at hne ⊢
        exact ih _ hne
      | Reset =>
        simp only [processClicks] at hne
        exact Bool.noConfusion hne

/-- The lifecycle ends in EndGame exactly when its final hand and deck
are both empty (provided it did not start at EndGame). -/
theorem lifecycle_state_iff (g : Game) (rs : Bool) (hst : g.state ≠ State.EndGame) :
    ((lifecycle g rs).state = State.EndGame ↔
      ((lifecycle g rs).hand.length = 0 ∧ (lifecycle g rs).deck.length = 0)) := by
  simp only [lifecycle, resetRefill]
  repeat' split
  all_goals simp_all

/-- C9: a non-reset update from the Playing state ends in EndGame exactly
when, after any refill attempt, both the hand and the deck are empty; the
reported total score is `payments*3 + trophies*2 + (hand + deck)`; and
payments are never mutated. -/
theorem endgame_transition_spec (g : Game) (clicks : List ClickableType) (r : Nat) (g2 : Game)
    (hup : Game.update g clicks r = some g2)
    (hne : (processClicks g clicks).2 = false)
    (hst : g.state = State.Playing) :
    (g2.state = State.EndGame ↔ (g2.hand.length = 0 ∧ g2.deck.length = 0)) ∧
    totalScore g2 = g2.payments * 3 + g2.trophies * 2 + (g2.hand.length + g2.deck.length) ∧
    g2.payments = g.payments := by
  unfold Game.update at hup
  rw [if_neg (by simp [hne])] at hup
  rcases hcb : combatPhase (processClicks g clicks).1 r with - | ⟨gc, cm, rs, tr⟩
  · rw [hcb] at hup
    exact Option.noConfusion hup
  · rw [hcb] at hup
    simp only [Option.some.injEq] at hup
    subst hup
    have hst3 : ({ killCheck gc cm tr with
        monsters := (killCheck gc cm tr).monsters.rallyRecompute } : Game).state
        ≠ State.EndGame := by
      have h2 := (killCheck_preserves gc cm tr).2.2.1
      have h3 := (combatPhase_preserves hcb).1
      have h4 := processClicks_state clicks g hne
      show (killCheck gc cm tr).state ≠ State.EndGame
      rw [h2, h3, h4, hst]
      simp
    refine ⟨lifecycle_state_iff _ rs hst3, rfl, ?_⟩
    have p1 := (lifecycle_preserves { killCheck gc cm tr with
      monsters := (killCheck gc cm tr).monsters.rallyRecompute } rs).1
    have p2 := (killCheck_preserves gc cm tr).2.2.2.1
    have p3 := (combatPhase_preserves hcb).2.2.1
    have p4 := (processClicks_preserves clicks g).2.2.2.1
    rw [p1]
    show (killCheck gc cm tr).payments = g.payments
    rw [p2, p3, p4]

/-- Witness for `endgame_transition_spec`: playing the last card of
`gEndGame` with an empty deck ends the game with score
`payments*3 = 3`. -/
theorem endgame_transition_spec_witness :
    Game.update gEndGame [] 0 = some (upd gEndGame) ∧
    (processClicks gEndGame []).2 = false ∧
    gEndGame.state = State.Playing ∧
    ((upd gEndGame).state = State.EndGame ↔
      ((upd gEndGame).hand.length = 0 ∧ (upd gEndGame).deck.length = 0)) ∧
    (upd gEndGame).state = State.EndGame ∧
    totalScore (upd gEndGame) = 3 :=
  ⟨by decide, rfl, rfl,
   (endgame_transition_spec gEndGame [] 0 (upd gEndGame) (by decide) rfl rfl).1,
   by decide, by decide⟩

theorem fold_set_zero_length (L : List Nat) (a : List Nat) :
    (L.foldl (fun acc i => acc.set i 0) a).length = a.length := by
  induction L generalizing a with
  | nil => rfl
  | cons j L ih => simp [List.foldl_cons, ih, List.length_set]

theorem fold_set_zero_getD_not_mem (L : List Nat) (a : List Nat) (i : Nat) (h : i ∉ L) :
    (L.foldl (fun acc i => acc.set i 0) a).getD i 0 = a.getD i 0 := by
  induction L generalizing a with
  | nil => rfl
  | cons j L ih =>
    simp only [List.mem_cons, not_or] at h
    simp only [List.foldl_cons]
    rw [ih _ h.2, getD_set_ne _ _ _ (fun hc => h.1 hc.symm)]

theorem fold_set_zero_getD_mem (L : List Nat) (a : List Nat) (i : Nat)
    (hm : i ∈ L) (hlen : i < a.length) :
    (L.foldl (fun acc i => acc.set i 0) a).getD i 0 = 0 := by
  induction L generalizing a with
  | nil => exact absurd hm (List.not_mem_nil i)
  | cons j L ih =>
    simp only [List.foldl_cons]
    by_cases hmem : i ∈ L
    · exact ih _ hmem (by rw [List.length_set]; exact hlen)
    · have hij : i = j := by
        rcases List.mem_cons.mp hm with h | h
        · exact h
        · exact absurd h hmem
      subst hij
      rw [fold_set_zero_getD_not_mem _ _ _ hmem, getD_set_self _ _ _ _ hlen]

theorem zeroAdjusts_getD (a : List Nat) (i : Nat) (hi : i < MONSTER_DECK_SIZE)
    (hlen : i < a.length) :
    (zeroAdjusts a).getD i 0 = 0 :=
  fold_set_zero_getD_mem _ _ _ (List.mem_range.mpr hi) hlen

theorem zeroAdjusts_length (a : List Nat) : (zeroAdjusts a).length = a.length :=
  fold_set_zero_length _ a

theorem rallyStep_length (m : Monsters) (a : List Nat) (j : Nat) :
    (rallyStep m a j).length = a.length := by
  unfold rallyStep
  split_ifs <;> simp [List.length_set]

theorem rally_fold_length (m : Monsters) (L : List Nat) (a : List Nat) :
    (L.foldl (rallyStep m) a).length = a.length := by
  induction L generalizing a with
  | nil => rfl
  | cons j L ih => simp [List.foldl_cons, ih, rallyStep_length]

theorem rallyStep_getD (m : Monsters) (a : List Nat) (j i : Nat)
    (hlen : a.length = MONSTER_DECK_SIZE) (hj : j < MONSTER_DECK_SIZE)
    (hi : i < MONSTER_DECK_SIZE) :
    (rallyStep m a j).getD i 0 = a.getD i 0 +
      (if rallyAliveAt m j = true ∧
          ((0 < j ∧ j - 1 = i) ∨ (j < MONSTER_DECK_SIZE - 1 ∧ j + 1 = i))
       then 1 else 0) := by
  simp only [MONSTER_DECK_SIZE] at hlen hj hi ⊢
  unfold rallyStep
  by_cases hra : rallyAliveAt m j = true
  · simp only [MONSTER_DECK_SIZE, hra, if_true, true_and]
    by_cases hj0 : j > 0 <;> by_cases hj13 : j < 14 - 1
    · rw [if_pos hj0, if_pos hj13]
      by_cases hi2 : i = j + 1
      · subst hi2
        rw [getD_set_self _ _ _ _ (by rw [List.length_set, hlen]; omega),
            getD_set_ne _ _ _ (by omega), if_pos (by omega)]
      · by_cases hi1 : i = j - 1
        · subst hi1
          rw [getD_set_ne _ _ _ (by omega), getD_set_self _ _ _ _ (by rw [hlen]; omega),
              if_pos (by omega)]
        · rw [getD_set_ne _ _ _ (by omega), getD_set_ne _ _ _ (by omega),
              if_neg (by omega)]
          omega
    · rw [if_pos hj0, if_neg hj13]
      by_cases hi1 : i = j - 1
      · subst hi1
        rw [getD_set_self _ _ _ _ (by rw [hlen]; omega), if_pos (by omega)]
      · rw [getD_set_ne _ _ _ (by omega), if_neg (by omega)]
        omega
    · rw [if_neg hj0, if_pos hj13]
      by_cases hi2 : i = j + 1
      · subst hi2
        rw [getD_set_self _ _ _ _ (by rw [hlen]; omega), if_pos (by omega)]
      · rw [getD_set_ne _ _ _ (by omega), if_neg (by omega)]
        omega
    · exact absurd (show j < 14 - 1 by omega) hj13
  · simp [hra]

theorem rally_fold_getD (m : Monsters) (L : List Nat) :
    ∀ (a : List Nat) (i : Nat), a.length = MONSTER_DECK_SIZE → i < MONSTER_DECK_SIZE →
      (∀ j ∈ L, j < MONSTER_DECK_SIZE) →
      (L.foldl (rallyStep m) a).getD i 0
        = a.getD i 0 + L.countP (fun j => decide (rallyAliveAt m j = true ∧
            ((0 < j ∧ j - 1 = i) ∨ (j < MONSTER_DECK_SIZE - 1 ∧ j + 1 = i)))) := by
  induction L with
  | nil =>
    intro a i _ _ _
    simp
  | cons j L ih =>
    intro a i hlen hi hmem
    simp only [List.foldl_cons]
    rw [ih (rallyStep m a j) i (by rw [rallyStep_length]; exact hlen) hi
        (fun k hk => hmem k (List.mem_cons_of_mem _ hk))]
    rw [rallyStep_getD m a j i hlen (hmem j (List.mem_cons_self _ _)) hi]
    rw [List.countP_cons]
    simp only [decide_eq_true_eq]
    by_cases hP : rallyAliveAt m j = true ∧
        ((0 < j ∧ j - 1 = i) ∨ (j < MONSTER_DECK_SIZE - 1 ∧ j + 1 = i))
    · simp only [hP, if_true]
      omega
    · simp only [hP, if_false]
      omega

theorem countP_range_adjacent (m : Monsters) (i : Nat) (hi : i < MONSTER_DECK_SIZE) :
    (List.range MONSTER_DECK_SIZE).countP (fun j => decide (rallyAliveAt m j = true ∧
        ((0 < j ∧ j - 1 = i) ∨ (j < MONSTER_DECK_SIZE - 1 ∧ j + 1 = i))))
      = adjacentRallyCount m i := by
  simp only [MONSTER_DECK_SIZE] at hi ⊢
  rw [show List.range 14 = [0, 1, 2, 3, 4, 5, 6, 7, 8, 9, 10, 11, 12, 13] from rfl]
  simp only [adjacentRallyCount, MONSTER_DECK_SIZE, List.countP_cons, List.countP_nil,
    decide_eq_true_eq]
  interval_cases i <;> simp <;> split_ifs <;> omega

theorem recompute_adjust_getD (m : Monsters)
    (hlen : m.strength_adjustments.length = MONSTER_DECK_SIZE) (i : Nat)
    (hi : i < MONSTER_DECK_SIZE) :
    (m.rallyRecompute).strength_adjustments.getD i 0 = adjacentRallyCount m i := by
  unfold Monsters.rallyRecompute
  rw [rally_fold_getD m _ (zeroAdjusts m.strength_adjustments) i
      (by rw [zeroAdjusts_length]; exact hlen) hi (fun j hj => List.mem_range.mp hj)]
  rw [zeroAdjusts_getD _ _ hi (by rw [hlen]; exact hi)]
  rw [countP_range_adjacent m i hi]
  omega

theorem recompute_adjust_length (m : Monsters) :
    (m.rallyRecompute).strength_adjustments.length = m.strength_adjustments.length := by
  unfold Monsters.rallyRecompute
  rw [rally_fold_length, zeroAdjusts_length]

theorem adjacentRallyCount_congr (m1 m2 : Monsters) (hab : m1.abilities = m2.abilities)
    (hal : m1.alive = m2.alive) (i : Nat) :
    adjacentRallyCount m1 i = adjacentRallyCount m2 i := by
  simp [adjacentRallyCount, rallyAliveAt, hab, hal]

theorem list_eq_of_getD (x y : List Nat) (hl : x.length = y.length)
    (h : ∀ i, i < x.length → x.getD i 0 = y.getD i 0) : x = y := by
  apply List.ext_getElem?
  intro n
  by_cases hn : n < x.length
  · rw [List.getElem?_eq_getElem hn, List.getElem?_eq_getElem (hl ▸ hn)]
    have hx := h n hn
    rw [List.getD_eq_getElem?_getD, List.getD_eq_getElem?_getD,
      List.getElem?_eq_getElem hn, List.getElem?_eq_getElem (hl ▸ hn)] at hx
    simpa using hx
  · rw [List.getElem?_eq_none (Nat.le_of_not_lt hn),
        List.getElem?_eq_none (by omega : y.length ≤ n)]

theorem recompute_idem (m : Monsters)
    (hlen : m.strength_adjustments.length = MONSTER_DECK_SIZE) :
    (m.rallyRecompute).rallyRecompute = m.rallyRecompute := by
  have hpres := rallyRecompute_preserves m
  have hlen2 : (m.rallyRecompute).strength_adjustments.length = MONSTER_DECK_SIZE := by
    rw [recompute_adjust_length]
    exact hlen
  have hadj : ((m.rallyRecompute).rallyRecompute).strength_adjustments
      = (m.rallyRecompute).strength_adjustments := by
    apply list_eq_of_getD
    · rw [recompute_adjust_length]
    · intro i hilen
      have hi : i < MONSTER_DECK_SIZE := by
        rw [recompute_adjust_length, hlen2] at hilen
        exact hilen
      rw [recompute_adjust_getD _ hlen2 i hi, recompute_adjust_getD m hlen i hi]
      exact adjacentRallyCount_congr _ _ hpres.2.2.1 hpres.2.2.2.2.2 i
  rw [show (m.rallyRecompute).rallyRecompute
      = { m.rallyRecompute with
          strength_adjustments := ((m.rallyRecompute).rallyRecompute).strength_adjustments }
    from rfl, hadj]

/-- C7: at the end of every (non-reset, non-panicking) update cycle, each
monster's strength adjustment equals exactly the number of its adjacent
positions holding a living Rally monster; and the recompute is
idempotent — running it again on the resulting monsters changes
nothing. -/
theorem rally_adjustment_spec (g : Game) (clicks : List ClickableType) (r : Nat) (g2 : Game)
    (hup : Game.update g clicks r = some g2)
    (hne : (processClicks g clicks).2 = false)
    (hlen : g.monsters.strength_adjustments.length = MONSTER_DECK_SIZE) :
    (∀ i, i < MONSTER_DECK_SIZE →
      g2.monsters.strength_adjustments.getD i 0 = adjacentRallyCount g2.monsters i) ∧
    (g2.monsters.rallyRecompute).rallyRecompute = g2.monsters.rallyRecompute := by
  unfold Game.update at hup
  rw [if_neg (by simp [hne])] at hup
  rcases hcb : combatPhase (processClicks g clicks).1 r with - | ⟨gc, cm, rs, tr⟩
  · rw [hcb] at hup
    exact Option.noConfusion hup
  · rw [hcb] at hup
    simp only [Option.some.injEq] at hup
    subst hup
    obtain ⟨-, -, -, -, -, -, -, cAlive, -, cAdj, cAb, -⟩ := combatPhase_preserves hcb
    obtain ⟨-, -, -, -, -, -, -, -, -, -, -, -, -, kAdj, kAb, -⟩ :=
      killCheck_preserves gc cm tr
    obtain ⟨-, rStr, rAb, -, -, rAlive⟩ :=
      rallyRecompute_preserves (killCheck gc cm tr).monsters
    obtain ⟨-, -, -, -, -, -, -, lAlive, -, lAdj, lAb, -, -⟩ :=
      lifecycle_preserves
        { killCheck gc cm tr with
            monsters := (killCheck gc cm tr).monsters.rallyRecompute } rs
    have hpc : (processClicks g clicks).1.monsters = g.monsters :=
      (processClicks_preserves clicks g).1
    have hklen : (killCheck gc cm tr).monsters.strength_adjustments.length
        = MONSTER_DECK_SIZE := by
      rw [kAdj, cAdj, hpc]
      exact hlen
    have hg2adj : (lifecycle
        { killCheck gc cm tr with
            monsters := (killCheck gc cm tr).monsters.rallyRecompute } rs).monsters.strength_adjustments
        = ((killCheck gc cm tr).monsters.rallyRecompute).strength_adjustments := lAdj
    have hg2ab : (lifecycle
        { killCheck gc cm tr with
            monsters := (killCheck gc cm tr).monsters.rallyRecompute } rs).monsters.abilities
        = (killCheck gc cm tr).monsters.abilities := by rw [lAb, rAb]
    have hg2al : (lifecycle
        { killCheck gc cm tr with
            monsters := (killCheck gc cm tr).monsters.rallyRecompute } rs).monsters.alive
        = (killCheck gc cm tr).monsters.alive := by rw [lAlive, rAlive]
    constructor
    · intro i hi
      rw [hg2adj, recompute_adjust_getD _ hklen i hi]
      exact adjacentRallyCount_congr _ _ hg2ab.symm hg2al.symm i
    · apply recompute_idem
      rw [hg2adj, recompute_adjust_length]
      exact hklen

/-- Witness for `rally_adjustment_spec`: after one update of `testGame`,
monster 1 (a living Rally) gives +1 to monsters 0 and 2; the
adjustments equal the adjacent-Rally counts everywhere. -/
theorem rally_adjustment_spec_witness :
    Game.update testGame [] 0 = some (upd testGame) ∧
    testGame.monsters.strength_adjustments.length = MONSTER_DECK_SIZE ∧
    (∀ i, i < MONSTER_DECK_SIZE →
      (upd testGame).monsters.strength_adjustments.getD i 0
        = adjacentRallyCount (upd testGame).monsters i) :=
  ⟨by decide, by decide,
   (rally_adjustment_spec testGame [] 0 (upd testGame) (by decide) rfl (by decide)).1⟩

end Maverick
